import Mathlib

/-!
Verification development for the task-supervision and core-allocation engine
of polaris-trade-libs (crates/utils/task-manager).

The Rust sources are shallowly embedded:
* `core_allocator.rs` — `CoreAffinityConfig`, `CoreAllocator`, `allocate`
  (the `HashMap<usize, Vec<String>>` usage map becomes an association list,
  `&mut self` becomes explicit state passing, `Result<Option<usize>, String>`
  becomes `Except String (Option Nat)` paired with the successor state).
* `task_manager.rs` — registration data, `validate_allocations`, the
  pre-flight phase of `run`, the list of `supervise` calls `run` spawns,
  the affinity-pinning target computed at the top of `supervise`, the
  run/on_shutdown ordering of `supervise` (as an event trace, where a panic
  in `run` unwinds and skips the rest of the body), and the mapping of
  subsystem failures to `TaskError` in `run`'s error handler.
* `error.rs` — `TaskError`, `TaskErrorKind`, `ShutdownError` (boxed error
  sources become their rendered strings).
-/

namespace PolarisTaskManager

/-- Core pinning config for a task and/or worker group
(`core_allocator.rs`, `CoreAffinityConfig`).  Rust's `Range { start, end }`
becomes `range start stop` (`end` is a Lean keyword). -/
inductive CoreAffinityConfig where
  | none
  | fixed (id : Nat)
  | range (start stop : Nat)
  | auto
deriving DecidableEq

/-- Allocator state (`core_allocator.rs`, `CoreAllocator`).  The
`HashMap<usize, Vec<String>>` is embedded as an association list from core id
to the ordered list of task names assigned to it. -/
structure CoreAllocator where
  core_usage : List (Nat × List String)
  available_cores : List Nat
  next_auto_core : Nat
deriving DecidableEq

/-- A fresh allocator over the available-core list reported by the OS
(`CoreAllocator::new`; `core_affinity::get_core_ids()` is the parameter). -/
def CoreAllocator.fresh (available : List Nat) : CoreAllocator :=
  { core_usage := [], available_cores := available, next_auto_core := 0 }

/-- Debug rendering of the available-core vector, as `format!("{:?}", v)`
prints it in the allocator's error messages. -/
def fmtCores (l : List Nat) : String :=
  "[" ++ String.intercalate ", " (l.map toString) ++ "]"

/-- Error message of the `Fixed` branch of `allocate` (lines 64-67). -/
def fixedErrMsg (id : Nat) (task_name : String) (available : List Nat) : String :=
  "Core " ++ toString id ++ " requested by task '" ++ task_name ++
    "' is not available. Available cores: " ++ fmtCores available

/-- Error message of the `Range` branch of `allocate` (lines 81-84). -/
def rangeErrMsg (start stop : Nat) (task_name : String) (available : List Nat) : String :=
  "No cores available in range " ++ toString start ++ "-" ++ toString stop ++
    " for task '" ++ task_name ++ "'. Available cores: " ++ fmtCores available

/-- Error message of the `Auto` branch of `allocate` (lines 98-101). -/
def autoErrMsg (task_name : String) : String :=
  "Auto affinity not supported for single instance task '" ++ task_name ++
    "'. Use Fixed or Range instead."

/-- The available cores falling inside `[start, stop]` inclusive, in
available-core order (the `filter`/`collect` of the `Range` branch,
lines 72-78; also recomputed inside `supervise`, lines 280-284). -/
def rangeSubset (available : List Nat) (start stop : Nat) : List Nat :=
  available.filter (fun c => decide (start ≤ c) && decide (c ≤ stop))

/-- `self.core_usage.entry(core_id).or_default().push(task_name)`
(lines 113-117) on the association-list embedding of the map. -/
def usagePush (m : List (Nat × List String)) (core : Nat) (task_name : String) :
    List (Nat × List String) :=
  match m with
  | [] => [(core, [task_name])]
  | (c, ts) :: rest =>
      if c = core then (c, ts ++ [task_name]) :: rest
      else (c, ts) :: usagePush rest core task_name

/-- Record a successful assignment in the usage map (lines 113-117). -/
def recordUsage (s : CoreAllocator) (core : Nat) (task_name : String) : CoreAllocator :=
  { s with core_usage := usagePush s.core_usage core task_name }

/-- `CoreAllocator::allocate` (lines 49-120), with `&mut self` made explicit:
the result pairs the Rust return value with the successor allocator state. -/
def allocate (s : CoreAllocator) (task_name : String) (affinity : CoreAffinityConfig)
    (instance_index : Option Nat) : Except String (Option Nat) × CoreAllocator :=
  if s.available_cores.isEmpty then
    (Except.ok Option.none, s)
  else
    match affinity with
    | CoreAffinityConfig.none => (Except.ok Option.none, s)
    | CoreAffinityConfig.fixed id =>
        if s.available_cores.contains id then
          (Except.ok (some id), recordUsage s id task_name)
        else
          (Except.error (fixedErrMsg id task_name s.available_cores), s)
    | CoreAffinityConfig.range start stop =>
        let r := rangeSubset s.available_cores start stop
        if r.isEmpty then
          (Except.error (rangeErrMsg start stop task_name s.available_cores), s)
        else
          let core :=
            match instance_index with
            | some i => r.getD (i % r.length) 0
            | Option.none => r.getD 0 0
          (Except.ok (some core), recordUsage s core task_name)
    | CoreAffinityConfig.auto =>
        match instance_index with
        | Option.none => (Except.error (autoErrMsg task_name), s)
        | some _ =>
            let core := s.available_cores.getD
              (s.next_auto_core % s.available_cores.length) 0
            (Except.ok (some core),
              { recordUsage s core task_name with next_auto_core := s.next_auto_core + 1 })

/-- `CoreAllocator::get_conflicts` (lines 145-151): cores with more than one
assigned task, with their name lists. -/
def get_conflicts (s : CoreAllocator) : List (Nat × List String) :=
  s.core_usage.filter (fun p => decide (1 < p.2.length))

/-- Whether an `allocate` call fails, as a function of the inputs alone
(the error branches of lines 55-111: an empty available set short-circuits
to `Ok(None)` before any error can fire). -/
def allocFails (available : List Nat) (affinity : CoreAffinityConfig)
    (instance_index : Option Nat) : Bool :=
  if available.isEmpty then false
  else
    match affinity with
    | CoreAffinityConfig.none => false
    | CoreAffinityConfig.fixed id => !(available.contains id)
    | CoreAffinityConfig.range start stop => (rangeSubset available start stop).isEmpty
    | CoreAffinityConfig.auto => instance_index.isNone

/-- One pending `allocate` call: task name, affinity, instance index. -/
abbrev AllocCall := String × CoreAffinityConfig × Option Nat

/-- Run a sequence of `allocate` calls, stopping at the first error
(the two loops of `TaskManager::validate_allocations`, lines 222-240). -/
def allocateAll (s : CoreAllocator) : List AllocCall → Except String CoreAllocator
  | [] => Except.ok s
  | (n, a, i) :: rest =>
      match allocate s n a i with
      | (Except.error e, _) => Except.error e
      | (Except.ok _, s') => allocateAll s' rest

/-- `TaskErrorKind` (`error.rs`, lines 56-80); boxed error sources are
embedded as their rendered strings. -/
inductive TaskErrorKind where
  | execution (source : String)
  | shutdown (source : String)
  | panic (message : String)
  | startupFailed (message : String)
deriving DecidableEq

/-- `TaskError` (`error.rs`, lines 5-12). -/
structure TaskError where
  task_name : String
  kind : TaskErrorKind
deriving DecidableEq

/-- `ShutdownError` (`error.rs`, lines 82-96); the timeout duration is
dropped (wall-clock time is out of scope of the embedding). -/
inductive ShutdownError where
  | timeout
  | subsystemsFailed (failures : List TaskError)
  | invalidCoreAllocation (message : String)
deriving DecidableEq

/-- `TaskManagerConfig` (`task_manager.rs`, lines 14-27); the shutdown
timeout is kept as a bare number of seconds. -/
structure TaskManagerConfig where
  shutdown_timeout : Nat
  catch_signals : Bool
  shutdown_on_error : Bool
  validate_core_allocation : Bool
deriving DecidableEq

/-- `TaskManagerConfig::default` (lines 29-38). -/
def TaskManagerConfig.default : TaskManagerConfig :=
  { shutdown_timeout := 30, catch_signals := true,
    shutdown_on_error := true, validate_core_allocation := true }

/-- One single-instance registration: the task (reduced to its name — the
only datum the manager reads before executing it) and the affinity stored
in the parallel `task_affinities` vector (`register` /
`register_with_affinity`, lines 63-76). -/
structure TaskEntry where
  name : String
  affinity : CoreAffinityConfig
deriving DecidableEq

/-- `TaskFactory` (lines 337-342), with the producer closure dropped: the
manager only uses the group name, the instance count and the affinity
before the produced tasks run. -/
structure TaskFactory where
  name : String
  instances : Nat
  affinity : CoreAffinityConfig
deriving DecidableEq

/-- `TaskManager` registry state (lines 40-45). -/
structure TaskManager where
  tasks : List TaskEntry
  factories : List TaskFactory
  config : TaskManagerConfig
deriving DecidableEq

/-- The name given to factory instance `i` of group `g`:
`format!("{}-{}", g, i)` (lines 158 and 234). -/
def instanceName (group : String) (i : Nat) : String :=
  group ++ "-" ++ toString i

/-- The `allocate` calls `validate_allocations` performs, in order: every
single-instance task with `instance_index = None` (line 226), then every
factory instance `i` with `Some(i)` (line 236). -/
def validationCalls (tm : TaskManager) : List AllocCall :=
  (tm.tasks.map fun t => (t.name, t.affinity, (Option.none : Option Nat))) ++
  tm.factories.flatMap fun f =>
    (List.range f.instances).map fun i => (instanceName f.name i, f.affinity, some i)

/-- `TaskManager::validate_allocations` (lines 218-255): run the allocation
pass over a fresh allocator; the first hard error aborts with
`InvalidCoreAllocation`; conflicts are only warned about and do not abort.
`available` is the core list `CoreAllocator::new` obtains from the OS. -/
def validate_allocations (tm : TaskManager) (available : List Nat) :
    Except ShutdownError CoreAllocator :=
  match allocateAll (CoreAllocator.fresh available) (validationCalls tm) with
  | Except.error e => Except.error (ShutdownError.invalidCoreAllocation e)
  | Except.ok a => Except.ok a

/-- The `supervise` calls `run` spawns, in order (lines 120-182): every
single-instance task with `Some(i)` where `i` is its position in the
registration order (line 141), then every factory instance `i` with
`Some(i)` (line 175).  Each tuple is (task name, affinity, instance index)
as passed to `supervise`. -/
def runSupervisionCalls (tm : TaskManager) : List AllocCall :=
  (tm.tasks.enum.map fun p => (p.2.name, p.2.affinity, some p.1)) ++
  tm.factories.flatMap fun f =>
    (List.range f.instances).map fun i => (instanceName f.name i, f.affinity, some i)

/-- The pre-flight phase of `TaskManager::run` (lines 110-118): when
`validate_core_allocation` is set, a failing validation pass returns its
error before any subsystem is started; otherwise `run` proceeds to spawn
one `supervise` call per worker/instance. -/
def runPhase1 (tm : TaskManager) (available : List Nat) :
    Except ShutdownError (List AllocCall) :=
  if tm.config.validate_core_allocation then
    match validate_allocations tm available with
    | Except.error e => Except.error e
    | Except.ok _ => Except.ok (runSupervisionCalls tm)
  else Except.ok (runSupervisionCalls tm)

/-- The workers `run` actually starts: none when the pre-flight validation
aborts, otherwise all of them. -/
def runStartedWorkers (tm : TaskManager) (available : List Nat) : List AllocCall :=
  match runPhase1 tm available with
  | Except.error _ => []
  | Except.ok l => l

/-- The core `supervise` pins the current thread to (lines 266-316), as a
function of the OS core list, the affinity and the instance index; `none`
means no pinning happens (missing core, empty range subset, or the
logged-and-skipped `Auto`-without-index case). -/
def pinTarget (core_ids : List Nat) (affinity : CoreAffinityConfig)
    (instance_index : Option Nat) : Option Nat :=
  match affinity with
  | CoreAffinityConfig.none => Option.none
  | CoreAffinityConfig.fixed id =>
      if core_ids.contains id then some id else Option.none
  | CoreAffinityConfig.range start stop =>
      let r := rangeSubset core_ids start stop
      if r.isEmpty then Option.none
      else
        match instance_index with
        | some i => r[i % r.length]?
        | Option.none => r.head?
  | CoreAffinityConfig.auto =>
      match instance_index with
      | some i => core_ids[i % core_ids.length]?
      | Option.none => Option.none

/-- Outcome of one invocation of a worker's main routine `run(token)`:
normal return `Ok`, normal return `Err`, or a panic that unwinds out of
the `.await`. -/
inductive RunOutcome where
  | ok
  | err (e : TaskError)
  | panicked (message : String)
deriving DecidableEq

/-- Whether the outcome is a panic. -/
def RunOutcome.isPanicked : RunOutcome → Bool
  | RunOutcome.panicked _ => true
  | _ => false

/-- Observable calls made by the body of `supervise` after the pinning
section (lines 318-332). -/
inductive SuperviseEvent where
  | runCall
  | runRet
  | shutdownCall
  | shutdownRet
deriving DecidableEq

deriving instance DecidableEq for Except

/-- One supervised execution: the event trace of the `supervise` body and
the value the `supervise` future resolves to.  `result = none` means the
future never resolves because a panic unwound out of it (it is caught
further out, at the spawned-subsystem boundary of the shutdown runtime,
not inside `supervise`). -/
structure SuperviseRun where
  events : List SuperviseEvent
  result : Option (Except TaskError Unit)
deriving DecidableEq

/-- The run/cleanup/error-gating part of `supervise` (lines 318-332),
translated as straight-line code over the main routine's outcome:
`let res = task.run(token).await;` then `let _ = task.on_shutdown().await;`
then, when `shutdown_on_error` is false, an `Err` result is logged and
replaced by `Ok(())` (lines 325-330), else `res` is returned (line 331).
A panic inside `task.run` unwinds immediately: the trace stops at
`runCall` and neither `on_shutdown` nor the gating code executes. -/
def supervise (o : RunOutcome) (shutdown_on_error : Bool) : SuperviseRun :=
  match o with
  | RunOutcome.panicked _ =>
      { events := [SuperviseEvent.runCall], result := Option.none }
  | RunOutcome.ok =>
      { events := [SuperviseEvent.runCall, SuperviseEvent.runRet,
                   SuperviseEvent.shutdownCall, SuperviseEvent.shutdownRet],
        result := some (Except.ok ()) }
  | RunOutcome.err e =>
      { events := [SuperviseEvent.runCall, SuperviseEvent.runRet,
                   SuperviseEvent.shutdownCall, SuperviseEvent.shutdownRet],
        result := some (if shutdown_on_error then Except.error e else Except.ok ()) }

/-- A subsystem failure as recorded by the graceful-shutdown runtime that
hosts each `supervise` future: the future resolved to `Err`, or it
panicked and the panic was caught at the spawned-task boundary. -/
inductive SubsystemFailure where
  | failed (name : String) (e : TaskError)
  | panicked (name : String)
deriving DecidableEq

/-- `f.name()` on a subsystem failure. -/
def SubsystemFailure.name : SubsystemFailure → String
  | SubsystemFailure.failed n _ => n
  | SubsystemFailure.panicked n => n

/-- `format!("{:?}", f)` on a subsystem failure (the exact text is
irrelevant to the claims; only the fact that the result lands in an
`Execution`-kind error matters). -/
def SubsystemFailure.debugFmt : SubsystemFailure → String
  | SubsystemFailure.failed n e =>
      "Failed(" ++ n ++ ", " ++ e.task_name ++ ")"
  | SubsystemFailure.panicked n => "Panicked(" ++ n ++ ")"

/-- The failure-to-`TaskError` mapping in `TaskManager::run`'s
`SubsystemsFailed` arm (lines 200-212): every failure — panics included —
becomes a `TaskError` of kind `Execution` carrying the debug text. -/
def mapSubsystemFailure (f : SubsystemFailure) : TaskError :=
  { task_name := f.name, kind := TaskErrorKind.execution f.debugFmt }

/-- The failure the shutdown runtime records for one supervised execution:
none when the `supervise` future resolves to `Ok`. -/
def subsystemFailure (name : String) (o : RunOutcome) (shutdown_on_error : Bool) :
    Option SubsystemFailure :=
  match (supervise o shutdown_on_error).result with
  | Option.none => some (SubsystemFailure.panicked name)
  | some (Except.error e) => some (SubsystemFailure.failed name e)
  | some (Except.ok _) => Option.none

/-- The terminal result of `run` over the named execution outcomes (the
timeout path aside, which wall-clock time keeps out of the embedding):
`Ok` when no subsystem failed, else `SubsystemsFailed` over the failures
mapped by `run`'s error handler (lines 193-215). -/
def runResult (shutdown_on_error : Bool) (outcomes : List (String × RunOutcome)) :
    Except ShutdownError Unit :=
  let failures := outcomes.filterMap fun p => subsystemFailure p.1 p.2 shutdown_on_error
  if failures.isEmpty then Except.ok ()
  else Except.error (ShutdownError.subsystemsFailed (failures.map mapSubsystemFailure))

/-! ### Helper lemmas about the allocator -/

theorem allocate_available (s : CoreAllocator) (n : String) (a : CoreAffinityConfig)
    (i : Option Nat) : (allocate s n a i).2.available_cores = s.available_cores := by
  unfold allocate
  by_cases h : s.available_cores.isEmpty
  · simp [h]
  · simp only [h, Bool.false_eq_true, if_false]
    cases a with
    | none => rfl
    | fixed id =>
        by_cases hc : id ∈ s.available_cores <;> simp [hc, recordUsage]
    | range start stop =>
        by_cases hr : (rangeSubset s.available_cores start stop).isEmpty <;>
          simp [hr, recordUsage]
    | auto => cases i <;> simp [recordUsage]

/-- C10: `allocate` is atomic on failure — whenever it returns an error
(unavailable Fixed core, empty Range subset, or Auto without an instance
index), the allocator state is unchanged: no usage entry is added and the
Auto round-robin cursor is not incremented. -/
theorem c10_allocate_error_atomic (s : CoreAllocator) (n : String) (a : CoreAffinityConfig)
    (i : Option Nat) (e : String) (h : (allocate s n a i).1 = Except.error e) :
    (allocate s n a i).2 = s := by
  unfold allocate at h ⊢
  by_cases hav : s.available_cores.isEmpty
  · simp [hav] at h
  · simp only [hav, Bool.false_eq_true, if_false] at h ⊢
    cases a with
    | none => simp at h
    | fixed id =>
        by_cases hc : id ∈ s.available_cores <;> simp [hc] at h ⊢
    | range start stop =>
        by_cases hr : (rangeSubset s.available_cores start stop).isEmpty <;>
          simp [hr] at h ⊢
    | auto => cases i <;> simp at h ⊢

theorem getD_mod_mem (l : List Nat) (k : Nat) (h : l ≠ []) :
    l.getD (k % l.length) 0 ∈ l := by
  have hlen : 0 < l.length := List.length_pos.mpr h
  have hlt : k % l.length < l.length := Nat.mod_lt _ hlen
  rw [List.getD_eq_getElem?_getD, List.getElem?_eq_getElem hlt]
  exact List.getElem_mem hlt

theorem usagePush_keys (m : List (Nat × List String)) (core : Nat) (t : String) :
    (usagePush m core t).map Prod.fst ⊆ core :: m.map Prod.fst := by
  induction m with
  | nil => simp [usagePush]
  | cons hd tl ih =>
      obtain ⟨c, ts⟩ := hd
      by_cases hc : c = core
      · simp [usagePush, hc]
      · simp only [usagePush, hc, if_false, List.map_cons]
        intro x hx
        rcases List.mem_cons.mp hx with hx1 | hx1
        · simp [hx1]
        · rcases List.mem_cons.mp (ih hx1) with h1 | h1
          · simp [h1]
          · right; right; exact h1

theorem allocate_preserves_keys (s : CoreAllocator) (n : String)
    (a : CoreAffinityConfig) (i : Option Nat)
    (h : s.core_usage.map Prod.fst ⊆ s.available_cores) :
    (allocate s n a i).2.core_usage.map Prod.fst ⊆ (allocate s n a i).2.available_cores := by
  rw [allocate_available]
  unfold allocate
  by_cases hav : s.available_cores.isEmpty
  · simpa [hav] using h
  · have hne : s.available_cores ≠ [] := by
      simpa [List.isEmpty_iff] using hav
    simp only [hav, Bool.false_eq_true, if_false]
    cases a with
    | none => simpa using h
    | fixed id =>
        by_cases hc : id ∈ s.available_cores
        · have hcb : s.available_cores.contains id = true := by simpa using hc
          simp only [hcb, if_true, recordUsage]
          exact (usagePush_keys _ _ _).trans (List.cons_subset.mpr ⟨hc, h⟩)
        · have hcb : s.available_cores.contains id = false := by simpa using hc
          simp only [hcb, Bool.false_eq_true, if_false]
          simpa using h
    | range start stop =>
        by_cases hr : (rangeSubset s.available_cores start stop).isEmpty
        · simpa [hr] using h
        · have hrne : rangeSubset s.available_cores start stop ≠ [] := by
            simpa [List.isEmpty_iff] using hr
          have hsub : rangeSubset s.available_cores start stop ⊆ s.available_cores :=
            List.filter_subset' _
          simp only [hr, Bool.false_eq_true, if_false, recordUsage]
          cases i with
          | none =>
              refine (usagePush_keys _ _ _).trans (List.cons_subset.mpr ⟨?_, h⟩)
              have := getD_mod_mem (rangeSubset s.available_cores start stop) 0 hrne
              rw [Nat.zero_mod] at this
              exact hsub this
          | some k =>
              exact (usagePush_keys _ _ _).trans (List.cons_subset.mpr
                ⟨hsub (getD_mod_mem _ k hrne), h⟩)
    | auto =>
        cases i with
        | none => simpa using h
        | some k =>
            simp only [recordUsage]
            exact (usagePush_keys _ _ _).trans (List.cons_subset.mpr
              ⟨getD_mod_mem _ _ hne, h⟩)

/-- Allocator states reachable from a fresh allocator by any sequence of
`allocate` calls. -/
inductive Reachable (available : List Nat) : CoreAllocator → Prop where
  | init : Reachable available (CoreAllocator.fresh available)
  | step (s : CoreAllocator) (n : String) (a : CoreAffinityConfig) (i : Option Nat) :
      Reachable available s → Reachable available (allocate s n a i).2

theorem reachable_keys_subset (available : List Nat) (s : CoreAllocator)
    (h : Reachable available s) :
    s.core_usage.map Prod.fst ⊆ s.available_cores := by
  induction h with
  | init => simp [CoreAllocator.fresh]
  | step s n a i _ ih => exact allocate_preserves_keys s n a i ih

/-- A sequence of `Auto` allocations: each entry is the task name and the
instance index passed along with `CoreAffinityConfig::Auto`. -/
def autoSeq (s : CoreAllocator) :
    List (String × Nat) → List (Except String (Option Nat)) × CoreAllocator
  | [] => ([], s)
  | (n, i) :: rest =>
      let step := allocate s n CoreAffinityConfig.auto (some i)
      let tail := autoSeq step.2 rest
      (step.1 :: tail.1, tail.2)

theorem allocate_auto_some (s : CoreAllocator) (n : String) (i : Nat)
    (h : s.available_cores ≠ []) :
    allocate s n CoreAffinityConfig.auto (some i) =
      (Except.ok (some (s.available_cores.getD
          (s.next_auto_core % s.available_cores.length) 0)),
        { core_usage := usagePush s.core_usage
            (s.available_cores.getD (s.next_auto_core % s.available_cores.length) 0) n,
          available_cores := s.available_cores,
          next_auto_core := s.next_auto_core + 1 }) := by
  have hav : s.available_cores.isEmpty = false := by
    simpa [List.isEmpty_iff] using h
  simp [allocate, hav, recordUsage]

theorem autoSeq_spec (av : List Nat) (h : av ≠ []) (calls : List (String × Nat)) :
    ∀ s : CoreAllocator, s.available_cores = av →
      (autoSeq s calls).1 =
        (List.range calls.length).map
          (fun j => Except.ok (some (av.getD ((s.next_auto_core + j) % av.length) 0))) ∧
      (autoSeq s calls).2.available_cores = av ∧
      (autoSeq s calls).2.next_auto_core = s.next_auto_core + calls.length := by
  induction calls with
  | nil => intro s hs; simp [autoSeq, hs]
  | cons hd tl ih =>
      intro s hs
      obtain ⟨n, i⟩ := hd
      have hstep := allocate_auto_some s n i (hs ▸ h)
      have hav1 : (allocate s n CoreAffinityConfig.auto (some i)).2.available_cores = av := by
        rw [allocate_available]; exact hs
      have hcur : (allocate s n CoreAffinityConfig.auto (some i)).2.next_auto_core =
          s.next_auto_core + 1 := by
        rw [hstep]
      have ih' := ih (allocate s n CoreAffinityConfig.auto (some i)).2 hav1
      simp only [autoSeq]
      refine ⟨?_, ih'.2.1, by
        rw [ih'.2.2, hcur, List.length_cons]; omega⟩
      rw [List.length_cons, List.range_succ_eq_map, List.map_cons, List.map_map,
        ih'.1, hcur]
      refine congrArg₂ _ ?_ ?_
      · rw [hstep]; simp [hs]
      · refine List.map_congr_left ?_
        intro j _
        simp only [Function.comp, Nat.succ_eq_add_one]
        refine congrArg _ (congrArg _ (congrArg₂ _ (congrArg₂ _ ?_ rfl) rfl))
        omega

theorem map_getD_range (l : List Nat) :
    (List.range l.length).map (fun j => l.getD j 0) = l := by
  induction l with
  | nil => simp
  | cons a t ih =>
      rw [List.length_cons, List.range_succ_eq_map, List.map_cons, List.map_map]
      refine congrArg₂ _ (by simp) ?_
      have hmap : List.map ((fun j => (a :: t).getD j 0) ∘ Nat.succ) (List.range t.length) =
          List.map (fun j => t.getD j 0) (List.range t.length) :=
        List.map_congr_left (fun j _ => by simp)
      rw [hmap, ih]

/-- `true` on `Err`, `false` on `Ok`. -/
def exceptIsError {ε α : Type} : Except ε α → Bool
  | Except.error _ => true
  | Except.ok _ => false

theorem allocate_error_eq_allocFails (s : CoreAllocator) (n : String)
    (a : CoreAffinityConfig) (i : Option Nat) :
    exceptIsError (allocate s n a i).1 = allocFails s.available_cores a i := by
  unfold allocate allocFails
  by_cases hav : s.available_cores.isEmpty
  · simp [hav, exceptIsError]
  · simp only [hav, Bool.false_eq_true, if_false]
    cases a with
    | none => simp [exceptIsError]
    | fixed id =>
        by_cases hc : id ∈ s.available_cores <;> simp [hc, exceptIsError]
    | range start stop =>
        by_cases hr : (rangeSubset s.available_cores start stop).isEmpty <;>
          simp [hr, exceptIsError]
    | auto => cases i <;> simp [exceptIsError, Option.isNone]

theorem allocateAll_error_eq_any (calls : List AllocCall) :
    ∀ s : CoreAllocator,
      exceptIsError (allocateAll s calls) =
        calls.any (fun c => allocFails s.available_cores c.2.1 c.2.2) := by
  induction calls with
  | nil => intro s; simp [allocateAll, exceptIsError]
  | cons hd tl ih =>
      intro s
      obtain ⟨n, a, i⟩ := hd
      simp only [allocateAll]
      rcases hres : allocate s n a i with ⟨r, s'⟩
      cases r with
      | error e =>
          have : allocFails s.available_cores a i = true := by
            rw [← allocate_error_eq_allocFails s n a i, hres]; rfl
          simp [exceptIsError, List.any_cons, this]
      | ok v =>
          have hfail : allocFails s.available_cores a i = false := by
            rw [← allocate_error_eq_allocFails s n a i, hres]; rfl
          have havail : s'.available_cores = s.available_cores := by
            have := allocate_available s n a i
            rw [hres] at this; exact this
          simp [List.any_cons, hfail, ih s', havail]

/-- `true` when the pre-flight phase of `run` aborted. -/
def phase1Failed (tm : TaskManager) (available : List Nat) : Bool :=
  exceptIsError (runPhase1 tm available)

/-- `true` when the pre-flight phase of `run` aborted with
`InvalidCoreAllocation`. -/
def phase1InvalidCoreAllocation (tm : TaskManager) (available : List Nat) : Bool :=
  match runPhase1 tm available with
  | Except.error (ShutdownError.invalidCoreAllocation _) => true
  | _ => false

theorem map_getD_range_comp {β : Type} (l : List Nat) (f : Nat → β) :
    (List.range l.length).map (fun j => f (l.getD j 0)) = l.map f := by
  conv_rhs => rw [← map_getD_range l]
  rw [List.map_map]
  rfl

/-! ### Claim theorems -/

/-- C10 witness: a concrete failing `Fixed` allocation leaves the fresh
allocator untouched. -/
theorem c10_allocate_error_atomic_witness :
    (allocate (CoreAllocator.fresh [0]) "t" (CoreAffinityConfig.fixed 5) Option.none).1 =
      Except.error (fixedErrMsg 5 "t" [0]) ∧
    (allocate (CoreAllocator.fresh [0]) "t" (CoreAffinityConfig.fixed 5) Option.none).2 =
      CoreAllocator.fresh [0] :=
  ⟨by decide,
    c10_allocate_error_atomic (CoreAllocator.fresh [0]) "t" (CoreAffinityConfig.fixed 5)
      Option.none (fixedErrMsg 5 "t" [0]) (by decide)⟩

/-- C4: over a non-empty available-core set, `allocate` with
`Range(start, stop)` fails (naming the worker and the range bounds) exactly
when the available subset `S` of `[start, stop]` is empty; otherwise it
returns `S[i mod |S|]` for `instance_index = Some i` and `S[0]` for
`instance_index = None`; in particular `Range(1,2)` over `[0,1,2,3]` with
indices `0..3` yields cores `1,2,1,2`. -/
theorem c4_range_allocation (s : CoreAllocator) (task_name : String) (start stop : Nat)
    (hne : s.available_cores ≠ []) :
    (rangeSubset s.available_cores start stop = [] →
      ∀ i : Option Nat,
        (allocate s task_name (CoreAffinityConfig.range start stop) i).1 =
          Except.error (rangeErrMsg start stop task_name s.available_cores) ∧
        (∃ p q, rangeErrMsg start stop task_name s.available_cores =
          p ++ task_name ++ q) ∧
        (∃ p q, rangeErrMsg start stop task_name s.available_cores =
          p ++ toString start ++ "-" ++ toString stop ++ q)) ∧
    (rangeSubset s.available_cores start stop ≠ [] →
      (∀ i : Nat,
        (allocate s task_name (CoreAffinityConfig.range start stop) (some i)).1 =
          Except.ok (some ((rangeSubset s.available_cores start stop).getD
            (i % (rangeSubset s.available_cores start stop).length) 0))) ∧
      (allocate s task_name (CoreAffinityConfig.range start stop) Option.none).1 =
        Except.ok (some ((rangeSubset s.available_cores start stop).getD 0 0))) ∧
    ((List.range 4).map fun i =>
        (allocate (CoreAllocator.fresh [0, 1, 2, 3]) "w"
          (CoreAffinityConfig.range 1 2) (some i)).1) =
      [Except.ok (some 1), Except.ok (some 2), Except.ok (some 1), Except.ok (some 2)] := by
  have hav : s.available_cores.isEmpty = false := by
    simpa [List.isEmpty_iff] using hne
  refine ⟨?_, ?_, by decide⟩
  · intro hemp i
    have hremp : (rangeSubset s.available_cores start stop).isEmpty = true := by
      simp [hemp]
    refine ⟨by simp [allocate, hav, hremp], ?_, ?_⟩
    · exact ⟨"No cores available in range " ++ toString start ++ "-" ++ toString stop ++
        " for task '", "'. Available cores: " ++ fmtCores s.available_cores,
        by simp [rangeErrMsg, String.append_assoc]⟩
    · exact ⟨"No cores available in range ",
        " for task '" ++ task_name ++ "'. Available cores: " ++ fmtCores s.available_cores,
        by simp [rangeErrMsg, String.append_assoc]⟩
  · intro hne2
    have hremp : (rangeSubset s.available_cores start stop).isEmpty = false := by
      simpa [List.isEmpty_iff] using hne2
    exact ⟨fun i => by simp [allocate, hav, hremp], by simp [allocate, hav, hremp]⟩

/-- C4 witness: `Range(1,2)` over available cores `[0,1,2,3]` at instance
index 3 assigns core 2 (= subset\[3 mod 2\]). -/
theorem c4_range_allocation_witness :
    (CoreAllocator.fresh [0, 1, 2, 3]).available_cores ≠ [] ∧
    (allocate (CoreAllocator.fresh [0, 1, 2, 3]) "w" (CoreAffinityConfig.range 1 2)
        (some 3)).1 = Except.ok (some 2) := by
  have h := c4_range_allocation (CoreAllocator.fresh [0, 1, 2, 3]) "w" 1 2 (by decide)
  refine ⟨by decide, ?_⟩
  have h2 := (h.2.1 (by decide)).1 3
  rw [h2]
  decide

/-- C5 counterexample: with an empty available-core set, `allocate` with
`Auto` and no instance index returns the successful no-allocation result
`Ok(None)` instead of an error, refuting the claim that it errors for
every allocator state. -/
theorem c5_counterexample :
    (allocate (CoreAllocator.fresh []) "t" CoreAffinityConfig.auto Option.none).1 =
      Except.ok Option.none := by decide

/-- C5 (amended): whenever the available-core set is non-empty, `allocate`
with `Auto` and `instance_index = None` fails with the
"not supported for single instance" error naming the worker; with an empty
available-core set every such call short-circuits to `Ok(None)` with the
state unchanged. -/
theorem c5_auto_none_fails (s : CoreAllocator) (task_name : String)
    (hne : s.available_cores ≠ []) :
    (allocate s task_name CoreAffinityConfig.auto Option.none).1 =
      Except.error (autoErrMsg task_name) ∧
    (∃ p q, autoErrMsg task_name = p ++ task_name ++ q) ∧
    (∀ t : CoreAllocator, ∀ u : String, t.available_cores = [] →
      allocate t u CoreAffinityConfig.auto Option.none = (Except.ok Option.none, t)) := by
  have hav : s.available_cores.isEmpty = false := by
    simpa [List.isEmpty_iff] using hne
  refine ⟨by simp [allocate, hav], ?_, ?_⟩
  · exact ⟨"Auto affinity not supported for single instance task '",
      "'. Use Fixed or Range instead.", by simp [autoErrMsg, String.append_assoc]⟩
  · intro t u ht
    have : t.available_cores.isEmpty = true := by simp [ht]
    simp [allocate, this]

/-- C5 witness: over available cores `[0,1]` the `Auto`/`None` call errors
with the single-instance message. -/
theorem c5_auto_none_fails_witness :
    (CoreAllocator.fresh [0, 1]).available_cores ≠ [] ∧
    (allocate (CoreAllocator.fresh [0, 1]) "t" CoreAffinityConfig.auto Option.none).1 =
      Except.error (autoErrMsg "t") :=
  ⟨by decide, (c5_auto_none_fails (CoreAllocator.fresh [0, 1]) "t" (by decide)).1⟩

/-- C6: starting from a fresh allocator over a non-empty available-core
list of length n, n+1 `Auto` allocations (each with some instance index)
return every available core exactly once in list order and then wrap back
to the first core; moreover each single `Auto` call assigns
`available[cursor mod n]` and increments the shared cursor by one. -/
theorem c6_auto_round_robin (av : List Nat) (calls : List (String × Nat))
    (hne : av ≠ []) (hlen : calls.length = av.length + 1) :
    (autoSeq (CoreAllocator.fresh av) calls).1 =
      (av.map fun c => Except.ok (some c)) ++ [Except.ok (some (av.getD 0 0))] ∧
    (∀ s : CoreAllocator, ∀ n : String, ∀ i : Nat, s.available_cores = av →
      (allocate s n CoreAffinityConfig.auto (some i)).1 =
        Except.ok (some (av.getD (s.next_auto_core % av.length) 0)) ∧
      (allocate s n CoreAffinityConfig.auto (some i)).2.next_auto_core =
        s.next_auto_core + 1) := by
  constructor
  · have hspec := (autoSeq_spec av hne calls (CoreAllocator.fresh av) rfl).1
    rw [hspec, hlen]
    have hcursor : (CoreAllocator.fresh av).next_auto_core = 0 := rfl
    rw [hcursor, List.range_succ, List.map_append]
    refine congrArg₂ _ ?_ ?_
    · have hc : ∀ j ∈ List.range av.length,
          (fun j => (Except.ok (some (av.getD ((0 + j) % av.length) 0)) :
            Except String (Option Nat))) j =
            (fun j => (Except.ok (some (av.getD j 0)) : Except String (Option Nat))) j := by
        intro j hj
        have hj2 : j < av.length := List.mem_range.mp hj
        simp [Nat.mod_eq_of_lt hj2]
      rw [List.map_congr_left hc]
      exact map_getD_range_comp av (fun c => Except.ok (some c))
    · simp [Nat.mod_self]
  · intro s n i hs
    have h := allocate_auto_some s n i (hs ▸ hne)
    constructor
    · rw [h]
      simp [hs]
    · rw [h]

/-- C6 witness: over available cores `[5,6,7]`, four `Auto` allocations
return `5, 6, 7, 5`. -/
theorem c6_auto_round_robin_witness :
    ([5, 6, 7] : List Nat) ≠ [] ∧
    ([("a", 0), ("b", 1), ("c", 2), ("d", 3)] : List (String × Nat)).length =
      ([5, 6, 7] : List Nat).length + 1 ∧
    (autoSeq (CoreAllocator.fresh [5, 6, 7])
        [("a", 0), ("b", 1), ("c", 2), ("d", 3)]).1 =
      (([5, 6, 7] : List Nat).map fun c => Except.ok (some c)) ++
        [Except.ok (some (([5, 6, 7] : List Nat).getD 0 0))] :=
  ⟨by decide, by decide,
    (c6_auto_round_robin [5, 6, 7] [("a", 0), ("b", 1), ("c", 2), ("d", 3)]
      (by decide) (by decide)).1⟩

/-- C9: for every allocator reachable from a fresh `CoreAllocator` by any
sequence of `allocate` calls, every core id appearing as a key of the
usage mapping is a member of the available-core set fixed at
construction. -/
theorem c9_usage_keys_available (available : List Nat) (s : CoreAllocator)
    (h : Reachable available s) :
    (s.core_usage.map Prod.fst).all (fun c => s.available_cores.contains c) = true := by
  have hsub := reachable_keys_subset available s h
  rw [List.all_eq_true]
  intro c hc
  simpa using hsub hc

/-- C9 witness: after one successful `Fixed` allocation from a fresh
allocator over `[0,1]`, the usage keys are inside the available set. -/
theorem c9_usage_keys_available_witness :
    (((allocate (CoreAllocator.fresh [0, 1]) "t" (CoreAffinityConfig.fixed 0)
          Option.none).2.core_usage.map Prod.fst).all
      (fun c => (allocate (CoreAllocator.fresh [0, 1]) "t" (CoreAffinityConfig.fixed 0)
          Option.none).2.available_cores.contains c)) = true :=
  c9_usage_keys_available [0, 1] _
    (Reachable.step _ "t" (CoreAffinityConfig.fixed 0) Option.none Reachable.init)

/-- C3: with `validate_core_allocation` enabled, the pre-flight phase of
`run` aborts — always with `InvalidCoreAllocation` — exactly when some
registered worker/instance has a hard allocation error (failing `Fixed`,
`Range` or `Auto` request over the OS core list); in that case no worker
is started, and when no hard error exists every registered
worker/instance is started, conflicts notwithstanding. -/
theorem c3_validation_gate (tm : TaskManager) (available : List Nat)
    (hv : tm.config.validate_core_allocation = true) :
    (phase1Failed tm available =
      (validationCalls tm).any (fun c => allocFails available c.2.1 c.2.2)) ∧
    (phase1Failed tm available = phase1InvalidCoreAllocation tm available) ∧
    (phase1Failed tm available = true → runStartedWorkers tm available = []) ∧
    (phase1Failed tm available = false →
      runStartedWorkers tm available = runSupervisionCalls tm) := by
  have hval : exceptIsError (allocateAll (CoreAllocator.fresh available)
        (validationCalls tm)) =
      (validationCalls tm).any (fun c => allocFails available c.2.1 c.2.2) := by
    simpa [CoreAllocator.fresh] using
      allocateAll_error_eq_any (validationCalls tm) (CoreAllocator.fresh available)
  cases hres : allocateAll (CoreAllocator.fresh available) (validationCalls tm) with
  | error e =>
      have hany : ((validationCalls tm).any
          fun c => allocFails available c.2.1 c.2.2) = true := by
        rw [← hval, hres]; rfl
      have hp1 : phase1Failed tm available = true := by
        simp [phase1Failed, runPhase1, hv, validate_allocations, hres, exceptIsError]
      have hp2 : phase1InvalidCoreAllocation tm available = true := by
        simp [phase1InvalidCoreAllocation, runPhase1, hv, validate_allocations, hres]
      have hp3 : runStartedWorkers tm available = [] := by
        simp [runStartedWorkers, runPhase1, hv, validate_allocations, hres]
      refine ⟨by rw [hp1, hany], by rw [hp1, hp2], fun _ => hp3, fun hfalse => ?_⟩
      rw [hp1] at hfalse
      cases hfalse
  | ok a =>
      have hany : ((validationCalls tm).any
          fun c => allocFails available c.2.1 c.2.2) = false := by
        rw [← hval, hres]; rfl
      have hp1 : phase1Failed tm available = false := by
        simp [phase1Failed, runPhase1, hv, validate_allocations, hres, exceptIsError]
      have hp2 : phase1InvalidCoreAllocation tm available = false := by
        simp [phase1InvalidCoreAllocation, runPhase1, hv, validate_allocations, hres]
      have hp4 : runStartedWorkers tm available = runSupervisionCalls tm := by
        simp [runStartedWorkers, runPhase1, hv, validate_allocations, hres]
      refine ⟨by rw [hp1, hany], by rw [hp1, hp2], fun htrue => ?_, fun _ => hp4⟩
      rw [hp1] at htrue
      cases htrue

/-- Registry used by the C3 witness: one valid `Fixed` worker and one
`Fixed(99)` worker over available cores `[0,1,2,3]`. -/
def c3WitnessTM : TaskManager :=
  { tasks := [{ name := "good", affinity := CoreAffinityConfig.fixed 0 },
              { name := "bad", affinity := CoreAffinityConfig.fixed 99 }],
    factories := [],
    config := TaskManagerConfig.default }

/-- C3 witness: a `Fixed(99)` registration over `[0,1,2,3]` makes the
pre-flight phase abort and no worker is started. -/
theorem c3_validation_gate_witness :
    c3WitnessTM.config.validate_core_allocation = true ∧
    phase1Failed c3WitnessTM [0, 1, 2, 3] = true ∧
    runStartedWorkers c3WitnessTM [0, 1, 2, 3] = [] :=
  ⟨by decide, by decide,
    (c3_validation_gate c3WitnessTM [0, 1, 2, 3] (by decide)).2.2.1 (by decide)⟩

/-- C1 counterexample: when the main routine panics, the supervised
execution's trace records zero `on_shutdown` invocations, refuting
"invoked exactly once whatever the outcome (success, error, or panic)". -/
theorem c1_counterexample :
    (supervise (RunOutcome.panicked "boom") true).events.count
      SuperviseEvent.shutdownCall = 0 := by decide

/-- C1 (amended): in every supervised execution, `on_shutdown` is invoked
exactly once when the main routine returns (success or error) and zero
times when it panics (the panic unwinds past the cleanup call), and it is
never invoked before the main routine has returned. -/
theorem c1_on_shutdown_after_run (o : RunOutcome) (soe : Bool) :
    (supervise o soe).events.count SuperviseEvent.shutdownCall =
      (if o.isPanicked then 0 else 1) ∧
    SuperviseEvent.shutdownCall ∉
      (supervise o soe).events.takeWhile (fun e => e != SuperviseEvent.runRet) := by
  cases o with
  | ok =>
      exact ⟨rfl, show SuperviseEvent.shutdownCall ∉ [SuperviseEvent.runCall] from by decide⟩
  | err e =>
      exact ⟨rfl, show SuperviseEvent.shutdownCall ∉ [SuperviseEvent.runCall] from by decide⟩
  | panicked m =>
      exact ⟨rfl, show SuperviseEvent.shutdownCall ∉ [SuperviseEvent.runCall] from by decide⟩

/-- Whether a `TaskErrorKind` is the `Panic` variant. -/
def kindIsPanic : TaskErrorKind → Bool
  | TaskErrorKind.panic _ => true
  | _ => false

/-- C2 counterexample: a worker that panics is surfaced by `run`'s error
mapping as a `TaskError` of kind `Execution` — not `Panic` — at this
concrete input, refuting the claimed conversion to a `Panic`-kind error. -/
theorem c2_counterexample :
    runResult true [("w", RunOutcome.panicked "boom")] =
      Except.error (ShutdownError.subsystemsFailed
        [{ task_name := "w",
           kind := TaskErrorKind.execution
             (SubsystemFailure.debugFmt (SubsystemFailure.panicked "w")) }]) ∧
    kindIsPanic (mapSubsystemFailure (SubsystemFailure.panicked "w")).kind = false := by
  exact ⟨by decide, by decide⟩

/-- C2 (amended): a panic in a worker's main routine does not unwind
through the supervisor — it is caught at the spawned-subsystem boundary of
the shutdown runtime — and `run` surfaces it as a `SubsystemsFailed`
result whose entry for the panicked worker is an `Execution`-kind
`TaskError` (never `Panic`-kind); sibling executions are aggregated
normally and `run` still returns a value. -/
theorem c2_panic_surfaces_as_execution (pre post : List (String × RunOutcome))
    (w m : String) (soe : Bool)
    (hsib : ((pre ++ post).all fun p => (subsystemFailure p.1 p.2 soe).isNone) = true) :
    runResult soe (pre ++ (w, RunOutcome.panicked m) :: post) =
      Except.error (ShutdownError.subsystemsFailed
        [mapSubsystemFailure (SubsystemFailure.panicked w)]) ∧
    kindIsPanic (mapSubsystemFailure (SubsystemFailure.panicked w)).kind = false ∧
    (mapSubsystemFailure (SubsystemFailure.panicked w)).kind =
      TaskErrorKind.execution (SubsystemFailure.debugFmt (SubsystemFailure.panicked w)) := by
  have hnone : ∀ p ∈ pre ++ post, subsystemFailure p.1 p.2 soe = Option.none := by
    intro p hp
    exact Option.isNone_iff_eq_none.mp (List.all_eq_true.mp hsib p hp)
  have hpre : pre.filterMap (fun p => subsystemFailure p.1 p.2 soe) = [] :=
    List.filterMap_eq_nil_iff.mpr fun p hp => hnone p (List.mem_append_left _ hp)
  have hpost : post.filterMap (fun p => subsystemFailure p.1 p.2 soe) = [] :=
    List.filterMap_eq_nil_iff.mpr fun p hp => hnone p (List.mem_append_right _ hp)
  have hmid : subsystemFailure w (RunOutcome.panicked m) soe =
      some (SubsystemFailure.panicked w) := rfl
  refine ⟨?_, rfl, rfl⟩
  simp [runResult, List.filterMap_append, List.filterMap_cons, hpre, hpost, hmid]

/-- C2 witness: with two healthy siblings, a panicking worker yields
`SubsystemsFailed` carrying exactly its `Execution`-kind error. -/
theorem c2_panic_surfaces_as_execution_witness :
    (([("a", RunOutcome.ok)] ++ [("b", RunOutcome.ok)]).all
      (fun p => (subsystemFailure p.1 p.2 true).isNone)) = true ∧
    runResult true
        ([("a", RunOutcome.ok)] ++ ("w", RunOutcome.panicked "boom") :: [("b", RunOutcome.ok)]) =
      Except.error (ShutdownError.subsystemsFailed
        [mapSubsystemFailure (SubsystemFailure.panicked "w")]) :=
  ⟨by decide,
    (c2_panic_surfaces_as_execution [("a", RunOutcome.ok)] [("b", RunOutcome.ok)]
      "w" "boom" true (by decide)).1⟩

/-- C7: the claim fails on the code and the code contradicts its own
validation pass — `run` supervises single-instance workers with `Some(i)`
(the registration position, line 141), while `validate_allocations` uses
`None` (line 226): the second registered single-instance worker with
`Range(1,2)` over cores `[0,1,2,3]` receives instance index `Some 1` and
is pinned to core 2 (= subset\[1 mod 2\]), whereas the no-index path the
claim describes — and the validation pass actually takes — yields
subset\[0\] = core 1. -/
theorem c7_single_instance_gets_registration_index :
    runSupervisionCalls
        { tasks := [{ name := "a", affinity := CoreAffinityConfig.none },
                    { name := "b", affinity := CoreAffinityConfig.range 1 2 }],
          factories := [],
          config := TaskManagerConfig.default } =
      [("a", CoreAffinityConfig.none, some 0),
       ("b", CoreAffinityConfig.range 1 2, some 1)] ∧
    pinTarget [0, 1, 2, 3] (CoreAffinityConfig.range 1 2) (some 1) = some 2 ∧
    pinTarget [0, 1, 2, 3] (CoreAffinityConfig.range 1 2) Option.none = some 1 ∧
    (allocate (CoreAllocator.fresh [0, 1, 2, 3]) "b" (CoreAffinityConfig.range 1 2)
        Option.none).1 = Except.ok (some 1) := by
  exact ⟨by decide, by decide, by decide, by decide⟩

/-- C8: when `shutdown_on_error` is false and no execution panics, an
execution whose main routine errors is treated as successful: every
supervision wrapper resolves to `Ok`, no execution records a subsystem
failure (so none triggers cancellation of its siblings), and the
aggregated result of `run` is success. -/
theorem c8_errors_swallowed (outcomes : List (String × RunOutcome))
    (h : (outcomes.all fun p => !p.2.isPanicked) = true) :
    runResult false outcomes = Except.ok () ∧
    (outcomes.all fun p => (subsystemFailure p.1 p.2 false).isNone) = true ∧
    (outcomes.all fun p =>
      decide ((supervise p.2 false).result = some (Except.ok ()))) = true := by
  have hres : ∀ p ∈ outcomes, (supervise p.2 false).result = some (Except.ok ()) := by
    intro p hp
    have hnp := List.all_eq_true.mp h p hp
    cases hp2 : p.2 with
    | ok => rfl
    | err e => rfl
    | panicked msg => rw [hp2] at hnp; simp [RunOutcome.isPanicked] at hnp
  have hfail : ∀ p ∈ outcomes, subsystemFailure p.1 p.2 false = Option.none := by
    intro p hp
    simp [subsystemFailure, hres p hp]
  refine ⟨?_, ?_, ?_⟩
  · have hnil : outcomes.filterMap (fun p => subsystemFailure p.1 p.2 false) = [] :=
      List.filterMap_eq_nil_iff.mpr hfail
    simp [runResult, hnil]
  · rw [List.all_eq_true]; intro p hp; simp [hfail p hp]
  · rw [List.all_eq_true]; intro p hp; simp [hres p hp]

/-- C8 witness: one erroring worker next to a healthy one, with
`shutdown_on_error = false`, still aggregates to overall success. -/
theorem c8_errors_swallowed_witness :
    (([("a", RunOutcome.err { task_name := "a", kind := TaskErrorKind.execution "x" }),
       ("b", RunOutcome.ok)].all fun p => !p.2.isPanicked)) = true ∧
    runResult false
        [("a", RunOutcome.err { task_name := "a", kind := TaskErrorKind.execution "x" }),
         ("b", RunOutcome.ok)] = Except.ok () :=
  ⟨by decide,
    (c8_errors_swallowed
      [("a", RunOutcome.err { task_name := "a", kind := TaskErrorKind.execution "x" }),
       ("b", RunOutcome.ok)] (by decide)).1⟩

end PolarisTaskManager
